import Mathlib

/-!
# Verification of the Prashnakosh question-document parsing engine

This file gives a shallow embedding, in Lean 4, of the text-processing core of
the repository: the two parser modules `parse_all_docs_v2.py` (namespace `V2`)
and `parse_all_docs.py` (namespace `V1`).  Python strings are modelled as
`List Char`; the specific regular expressions used by the source are modelled
by dedicated matcher functions, one per pattern, each documented with the
pattern it embeds.  Whitespace (`\s`, `str.split`, `str.strip`) is modelled as
the six ASCII whitespace characters, and case folding as ASCII case folding,
matching the Python behaviour on the ASCII documents the engine processes.

Reading a `.docx` container is out of scope (an external collaborator); the
parser entry points are therefore modelled from the point where the list of
paragraph texts is available, exactly as the source functions behave on
`[para.text for para in doc.paragraphs]`.
-/

set_option autoImplicit false

namespace Prashnakosh

/-- The six ASCII whitespace characters recognized by Python's `\s`,
`str.split()` and `str.strip()` (ASCII model). -/
def isPyWs (c : Char) : Bool :=
  c == ' ' || c == '\t' || c == '\n' || c == '\r' || c == '\x0b' || c == '\x0c'

/-- ASCII decimal digit, Python's `\d` (ASCII model). -/
def isDigitC (c : Char) : Bool :=
  '0' ≤ c && c ≤ '9'

/-- ASCII lower-casing of one character, Python's `str.lower` (ASCII model). -/
def lowerC (c : Char) : Char :=
  if 'A' ≤ c && c ≤ 'Z' then Char.ofNat (c.toNat + 32) else c

/-- Case-insensitive character comparison (ASCII model), as produced by
`re.IGNORECASE`. -/
def ciEq (a b : Char) : Bool :=
  lowerC a == lowerC b

/-- Python `str.lower()` on a whole string (ASCII model). -/
def pyLower (l : List Char) : List Char :=
  l.map lowerC

/-- Python `str.strip()`: remove leading and trailing whitespace. -/
def pyStrip (l : List Char) : List Char :=
  ((l.dropWhile isPyWs).reverse.dropWhile isPyWs).reverse

/-- Helper for `pySplit`: `cur` holds the (reversed) word being accumulated. -/
def pySplitAux : List Char → List Char → List (List Char)
  | [], cur => if cur.isEmpty then [] else [cur.reverse]
  | c :: rest, cur =>
    if isPyWs c then
      if cur.isEmpty then pySplitAux rest [] else cur.reverse :: pySplitAux rest []
    else
      pySplitAux rest (c :: cur)

/-- Python `str.split()` with no argument: split on runs of whitespace,
discarding empty pieces. -/
def pySplit (l : List Char) : List (List Char) :=
  pySplitAux l []

/-- Python `' '.join(words)`: the words separated by single spaces. -/
def joinSpace : List (List Char) → List Char
  | [] => []
  | [w] => w
  | w :: ws => w ++ ' ' :: joinSpace ws

/-- Python `'\n'.split`-style split of a string on the newline character.
`splitNl []` is `[[]]`, matching `''.split('\n') == ['']`. -/
def splitNl : List Char → List (List Char)
  | [] => [[]]
  | c :: rest =>
    if c == '\n' then [] :: splitNl rest
    else
      match splitNl rest with
      | [] => [[c]]
      | h :: t => (c :: h) :: t

/-- Consume a literal word case-insensitively, returning the rest. -/
def litCI : List Char → List Char → Option (List Char)
  | [], l => some l
  | _ :: _, [] => none
  | w :: ws, c :: cs => if ciEq w c then litCI ws cs else none

/-- Consume a literal word case-sensitively, returning the rest. -/
def litCS : List Char → List Char → Option (List Char)
  | [], l => some l
  | _ :: _, [] => none
  | w :: ws, c :: cs => if w == c then litCS ws cs else none

/-- Maximal run of whitespace (`\s*`, greedy). -/
def dropWs (l : List Char) : List Char :=
  l.dropWhile isPyWs

/-- `\d+` (greedy): at least one digit; returns the digit group and the rest. -/
def digitsGroup (l : List Char) : Option (List Char × List Char) :=
  let d := l.takeWhile isDigitC
  if d.isEmpty then none else some (d, l.dropWhile isDigitC)

/-- Numeric value of a digit group, Python `int(...)` on the captured digits. -/
def digitsVal (d : List Char) : Nat :=
  d.foldl (fun n c => n * 10 + (c.toNat - '0'.toNat)) 0

/-- Python regex `$` without `re.MULTILINE`: end of string, or just before a
single trailing newline. -/
def atEnd (l : List Char) : Bool :=
  l.isEmpty || l == ['\n']

/-- Substring containment, Python's `needle in hay`. -/
def containsSub (hay needle : List Char) : Bool :=
  match hay with
  | [] => needle.isEmpty
  | _ :: t => needle.isPrefixOf hay || containsSub t needle

/-- Leftmost-match search: try the anchored matcher `m` at every position,
left to right; on success return the text before the match together with the
matcher's result (which carries the text after the match). -/
def findSplit {α : Type} (m : List Char → Option α) : List Char → Option (List Char × α)
  | [] => (m []).map (fun a => ([], a))
  | c :: t =>
    match m (c :: t) with
    | some a => some ([], a)
    | none => (findSplit m t).map (fun p => (c :: p.1, p.2))

/-- Fuelled core of `subAll`; the matcher result is the rest of the string
after the match.  Matches are replaced left to right and the replacement text
is not rescanned, exactly as Python's `re.sub`. -/
def subAllGo (m : List Char → Option (List Char)) (rep : List Char) :
    Nat → List Char → List Char
  | 0, l => l
  | fuel + 1, l =>
    match findSplit m l with
    | none => l
    | some (pre, rest) => pre ++ rep ++ subAllGo m rep fuel rest

/-- Python `re.sub(pattern, rep, text)` for a pattern modelled by the anchored
matcher `m` (every pattern used in the source matches at least one character,
so a fuel of `l.length` suffices). -/
def subAll (m : List Char → Option (List Char)) (rep : List Char) (l : List Char) : List Char :=
  subAllGo m rep l.length l

/-- ASCII upper-casing of one character, Python's `str.upper` (ASCII model). -/
def upperC (c : Char) : Char :=
  if 'a' ≤ c && c ≤ 'z' then Char.ofNat (c.toNat - 32) else c

/-- ASCII letter, what `[A-Z]` matches under `re.IGNORECASE`. -/
def isAsciiAlpha (c : Char) : Bool :=
  ('A' ≤ c && c ≤ 'Z') || ('a' ≤ c && c ≤ 'z')

/-- Python falsy-aware `or` / `if not x` defaulting for an optional integer:
both `None` and `0` are replaced by the default, as in `marks or 2` and
`if not current_marks:` in the source. -/
def pyOr (m : Option Nat) (d : Nat) : Nat :=
  match m with
  | some v => if v == 0 then d else v
  | none => d

/-- The question record emitted by every parsing strategy (the dict built in
`parse_all_docs_v2.py` lines 108-116/209-217 and `parse_all_docs.py` lines
86-93/164-172).  The `source` key is absent from the dicts built by
`parse_chapter_question_bank` in `parse_all_docs.py`, hence `Option`. -/
structure Question where
  questionText : String
  type : String
  marks : Nat
  options : Option (List String)
  correctAnswer : Option String
  chapter : String
  source : Option String
  deriving DecidableEq, Repr

/-- Anchored matcher for `Page:\s*\d+/\d+` (case-sensitive), from
`parse_all_docs_v2.py` lines 15 and 72 and `parse_all_docs.py` lines 17 and
138.  Returns the rest after the match. -/
def pageSlashAt (l : List Char) : Option (List Char) := do
  let l ← litCS "Page:".toList l
  let l := dropWs l
  let (_, l) ← digitsGroup l
  let l ← litCS "/".toList l
  let (_, l) ← digitsGroup l
  pure l

/-- Anchored matcher for `Page\s+\d+\s+of\s+\d+` (case-sensitive), from
`parse_all_docs_v2.py` lines 16 and 73.  Returns the rest after the match. -/
def pageOfAt (l : List Char) : Option (List Char) := do
  let l ← litCS "Page".toList l
  let l' := dropWs l
  if l'.length == l.length then none else do
  let (_, l) ← digitsGroup l'
  let l' := dropWs l
  if l'.length == l.length then none else do
  let l ← litCS "of".toList l'
  let l' := dropWs l
  if l'.length == l.length then none else do
  let (_, l) ← digitsGroup l'
  pure l

namespace V2

/-- `clean_text` from `parse_all_docs_v2.py` lines 12-19: substitute both page
marker patterns by a single space, then `' '.join(text.split())`, then
`strip()`. -/
def clean_text (l : List Char) : List Char :=
  let l := subAll pageSlashAt [' '] l
  let l := subAll pageOfAt [' '] l
  pyStrip (joinSpace (pySplit l))

end V2

/-- The `(?:mark|marks|m)` alternation followed by a literal closing character,
with the regex's left-to-right alternative order and IGNORECASE. -/
def markWordClose (close : Char) (l : List Char) : Option (List Char) :=
  ((litCI "mark".toList l).bind (litCS [close])) <|>
  ((litCI "marks".toList l).bind (litCS [close])) <|>
  ((litCI "m".toList l).bind (litCS [close]))

/-- Anchored matcher for `\[(\d+)\s*(?:mark|marks|m)\]` (IGNORECASE),
pattern 1 of `extract_marks`.  Returns the captured value and the rest. -/
def marksBracketAt (l : List Char) : Option (Nat × List Char) := do
  let l ← litCS "[".toList l
  let (d, l) ← digitsGroup l
  let l ← markWordClose ']' (dropWs l)
  pure (digitsVal d, l)

/-- Anchored matcher for `\((\d+)\s*(?:mark|marks|m)\)` (IGNORECASE),
pattern 2 of `extract_marks`. -/
def marksParenAt (l : List Char) : Option (Nat × List Char) := do
  let l ← litCS "(".toList l
  let (d, l) ← digitsGroup l
  let l ← markWordClose ')' (dropWs l)
  pure (digitsVal d, l)

/-- `\s*$` continuation: consume trailing whitespace and require the end of
the string (or the position before a single trailing newline). -/
def wsEnd (l : List Char) : Option (List Char) :=
  let l := dropWs l
  if atEnd l then some l else none

/-- Anchored matcher for `(\d+)\s*(?:mark|marks)\s*$` (IGNORECASE),
pattern 3 of `extract_marks`. -/
def marksTrailingAt (l : List Char) : Option (Nat × List Char) := do
  let (d, l) ← digitsGroup l
  let l := dropWs l
  let l ← ((litCI "mark".toList l).bind wsEnd) <|> ((litCI "marks".toList l).bind wsEnd)
  pure (digitsVal d, l)

/-- Anchored matcher for `\[(\d+)\]`, pattern 4 of `extract_marks`. -/
def bareBracketAt (l : List Char) : Option (Nat × List Char) := do
  let l ← litCS "[".toList l
  let (d, l) ← digitsGroup l
  let l ← litCS "]".toList l
  pure (digitsVal d, l)

/-- Anchored matcher for `Marks\s*(\d+)` (IGNORECASE), pattern 5 of
`extract_marks` (present only in `parse_all_docs_v2.py`). -/
def marksLabelAt (l : List Char) : Option (Nat × List Char) := do
  let l ← litCI "Marks".toList l
  let (d, l) ← digitsGroup (dropWs l)
  pure (digitsVal d, l)

/-- `re.search` of a numeric-capture pattern: leftmost match, captured value. -/
def searchVal (m : List Char → Option (Nat × List Char)) (l : List Char) : Option Nat :=
  (findSplit m l).map (fun p => p.2.1)

namespace V2

/-- `extract_marks` from `parse_all_docs_v2.py` lines 21-34: the first of the
five patterns that matches anywhere in the text wins. -/
def extract_marks (l : List Char) : Option Nat :=
  searchVal marksBracketAt l <|> searchVal marksParenAt l <|>
  searchVal marksTrailingAt l <|> searchVal bareBracketAt l <|>
  searchVal marksLabelAt l

/-- `detect_question_type` from `parse_all_docs_v2.py` lines 36-59. -/
def detect_question_type (text : List Char) (options : List (List Char)) : String :=
  let tl := pyLower text
  if !options.isEmpty && 2 ≤ options.length then "mcq"
  else if containsSub tl "true or false".toList || containsSub tl "true/false".toList then
    "true_false"
  else if containsSub tl "assertion".toList && containsSub tl "reason".toList then
    "assertion_reason"
  else if containsSub tl "fill in".toList || containsSub tl "fill up".toList then
    "fill_blank"
  else if containsSub tl "match".toList && containsSub tl "column".toList then
    "matching"
  else
    match extract_marks text with
    | some m =>
      if m != 0 then
        if 4 ≤ m then "long_answer" else if 2 ≤ m then "short_answer" else "short_answer"
      else "short_answer"
    | none => "short_answer"

end V2

/-- `\.?` (greedy optional literal dot; backtracking never helps in the
patterns below since the continuations cannot start with a dot). -/
def optDot : List Char → List Char
  | '.' :: r => r
  | l => l

namespace V2

/-- Anchored matcher for question pattern `^Q\.?\s*No\.?\s*(\d+)` (IGNORECASE),
`parse_all_docs_v2.py` line 87.  Returns the captured digits and the rest of
the line after the match. -/
def qNoAt (l : List Char) : Option (List Char × List Char) := do
  let l ← litCI "Q".toList l
  let l ← litCI "No".toList (dropWs (optDot l))
  let (d, l) ← digitsGroup (dropWs (optDot l))
  pure (d, l)

/-- Anchored matcher for `^Q\.?\s*(\d+)[.\):\s]` (IGNORECASE), line 88. -/
def qDotAt (l : List Char) : Option (List Char × List Char) := do
  let l ← litCI "Q".toList l
  let (d, l) ← digitsGroup (dropWs (optDot l))
  match l with
  | c :: r => if c == '.' || c == ')' || c == ':' || isPyWs c then some (d, r) else none
  | [] => none

/-- Anchored matcher for `^(\d+)[.\)]\s+`, line 89. -/
def numDotAt (l : List Char) : Option (List Char × List Char) := do
  let (d, l) ← digitsGroup l
  match l with
  | c :: r =>
    if c == '.' || c == ')' then
      let r' := dropWs r
      if r'.length == r.length then none else some (d, r')
    else none
  | [] => none

/-- Anchored matcher for `^(\d+)\s+(?=[A-Z])` (IGNORECASE, so the lookahead
letter class is case-insensitive), line 90. -/
def numSpaceAt (l : List Char) : Option (List Char × List Char) := do
  let (d, l) ← digitsGroup l
  let r := dropWs l
  if r.length == l.length then none
  else match r with
  | c :: _ => if isAsciiAlpha c then some (d, r) else none
  | [] => none

/-- The ordered `q_patterns` family of `parse_all_docs_v2.py` lines 86-91:
first pattern that matches wins; the second component is the rest of the line
after the matched prefix (what `re.sub(pattern, '', line)` leaves). -/
def q_any_match (l : List Char) : Option (List Char × List Char) :=
  qNoAt l <|> qDotAt l <|> numDotAt l <|> numSpaceAt l

end V2

/-- Letters accepted by the option patterns: `[a-dA-D]`. -/
def isOptLetter (c : Char) : Bool :=
  ('a' ≤ c && c ≤ 'd') || ('A' ≤ c && c ≤ 'D')

/-- The punctuation/whitespace class `[)\].\s]` of the option patterns. -/
def isOptPunct (c : Char) : Bool :=
  c == ')' || c == ']' || c == '.' || isPyWs c

/-- Index of the last character of `l` that is not a newline, if any. -/
def lastNonNl : List Char → Option Nat
  | [] => none
  | c :: rest =>
    match lastNonNl rest with
    | some i => some (i + 1)
    | none => if c != '\n' then some 0 else none

/-- `[cl]+(.+)` for a character class `cl` that contains all whitespace: a
greedy run of at least one class character followed by the greedy group
`(.+)` (a maximal newline-free run of at least one character).  The greedy
class run backtracks just enough for the group to match, as the regex engine
does; a character rejected by such a class is never a newline, so when
something follows the maximal run the group simply starts there. -/
def classRunContent (isCl : Char → Bool) (l : List Char) : Option (List Char) :=
  let run := l.takeWhile isCl
  if run.isEmpty then none
  else
    let after := l.drop run.length
    if !after.isEmpty then
      some (after.takeWhile (fun c => c != '\n'))
    else do
      let k ← lastNonNl run
      if k == 0 then none
      else some ((l.drop k).takeWhile (fun c => c != '\n'))

/-- `\s*(.+)`: like `classRunContent` but the leading whitespace run may be
empty. -/
def wsContentSplit (l : List Char) : Option (List Char) :=
  let run := l.takeWhile isPyWs
  let after := l.drop run.length
  if !after.isEmpty then
    some (after.takeWhile (fun c => c != '\n'))
  else
    (lastNonNl run).map (fun k => (l.drop k).takeWhile (fun c => c != '\n'))

/-- Anchored matcher for the option pattern
`^[(\[]?([a-dA-D])[)\].\s]+(.+)` (`parse_all_docs_v2.py` line 93, also used at
`parse_all_docs.py` lines 101 and 181).  Returns the letter (group 1) and the
option text (group 2). -/
def option_match (l : List Char) : Option (Char × List Char) := do
  let (letter, l1) ←
    match l with
    | c :: r =>
      if c == '(' || c == '[' then
        match r with
        | c2 :: r2 => if isOptLetter c2 then some (c2, r2) else none
        | [] => none
      else if isOptLetter c then some (c, r) else none
    | [] => none
  let content ← classRunContent isOptPunct l1
  pure (letter, content)

namespace V2

/-- The header/instruction denylist of `parse_all_docs_v2.py` line 124:
`^(Section|SECTION|General Instructions|Time Allowed|Maximum Marks|CLASS|COMPUTER SCIENCE|MARKING SCHEME|Q\s*No\s+Section)`
with IGNORECASE. -/
def header_match (l : List Char) : Bool :=
  (litCI "Section".toList l).isSome ||
  (litCI "SECTION".toList l).isSome ||
  (litCI "General Instructions".toList l).isSome ||
  (litCI "Time Allowed".toList l).isSome ||
  (litCI "Maximum Marks".toList l).isSome ||
  (litCI "CLASS".toList l).isSome ||
  (litCI "COMPUTER SCIENCE".toList l).isSome ||
  (litCI "MARKING SCHEME".toList l).isSome ||
  (Option.isSome do
    let r ← litCI "Q".toList l
    let r1 := dropWs r
    let r1 ← litCI "No".toList r1
    let r2 := dropWs r1
    if r2.length == r1.length then none else litCI "Section".toList r2)

end V2

/-- `^OR\s*$` (IGNORECASE), `parse_all_docs_v2.py` line 153 and
`parse_all_docs.py` line 189. -/
def or_marker (l : List Char) : Bool :=
  match litCI "OR".toList l with
  | some r => (dropWs r).isEmpty
  | none => false

namespace V2

/-- Anchored matcher for `\s*(Marks?|marks?)\s*\d*\s*$` (case-sensitive),
the first trailing-annotation strip of `save_current_question` (line 100).
Alternative order is `Marks`, `Mark`, `marks`, `mark` (greedy `s?`). -/
def marksWordTrailAt (l : List Char) : Option (List Char) :=
  let l1 := dropWs l
  let cont := fun (r : List Char) =>
    let r := dropWs ((dropWs r).dropWhile isDigitC)
    if atEnd r then some r else none
  ((litCS "Marks".toList l1).bind cont) <|> ((litCS "Mark".toList l1).bind cont) <|>
  ((litCS "marks".toList l1).bind cont) <|> ((litCS "mark".toList l1).bind cont)

/-- Anchored matcher for `\[?\d+\]?\s*$`, the second trailing strip of
`save_current_question` (line 101). -/
def bracketNumTrailAt (l : List Char) : Option (List Char) := do
  let l1 := match l with | '[' :: r => r | _ => l
  let (_, r) ← digitsGroup l1
  let r := match r with | ']' :: r2 => r2 | _ => r
  wsEnd r

/-- The joined, stripped body text computed by `save_current_question`
(`parse_all_docs_v2.py` lines 99-101): join the buffer with spaces, strip a
trailing mark-word annotation, then a trailing bracketed number. -/
def question_body (buffer : List (List Char)) : List Char :=
  pyStrip (subAll bracketNumTrailAt []
    (pyStrip (subAll marksWordTrailAt [] (joinSpace buffer))))

/-- Build the question record of `save_current_question` (lines 103-116), or
`none` when the candidate is discarded (empty buffer or body length `≤ 15`). -/
def finalize_question (chapter source : String) (buffer : List (List Char))
    (options : List (List Char)) (marks : Option Nat) : Option Question :=
  if buffer.isEmpty then none
  else if 15 < (question_body buffer).length then
    some { questionText := (question_body buffer).asString
           type := detect_question_type (question_body buffer) options
           marks := pyOr marks
             (if detect_question_type (question_body buffer) options == "mcq" then 1 else 2)
           options := if options.isEmpty then none else some (options.map List.asString)
           correctAnswer := none
           chapter := chapter
           source := some source }
  else none

/-- The mutable accumulators of `parse_document_universal` together with the
growing `questions` list. -/
structure UState where
  q_num : Option (List Char)
  options : List (List Char)
  marks : Option Nat
  buffer : List (List Char)
  questions : List Question
  deriving Repr

/-- The initial state of the universal parser's loop. -/
def initU : UState :=
  { q_num := none, options := [], marks := none, buffer := [], questions := [] }

/-- `save_current_question` of `parse_all_docs_v2.py` lines 95-120: emit the
finalized candidate (if any) and reset the buffer, options and marks
accumulators (`current_q_num` is not reset by the source). -/
def save_current_question (chapter source : String) (st : UState) : UState :=
  { st with
    questions :=
      match finalize_question chapter source st.buffer st.options st.marks with
      | some q => st.questions ++ [q]
      | none => st.questions
    buffer := [], options := [], marks := none }

/-- The last two branches of the universal loop body (lines 152-158): discard
bare `OR` markers, else append the line to the body buffer when a question is
open. -/
def universalAppend (st : UState) (line : List Char) : UState :=
  if or_marker line then st
  else if !st.buffer.isEmpty || st.q_num.isSome then
    { st with buffer := st.buffer ++ [line] }
  else st

/-- One iteration of the universal loop (`parse_all_docs_v2.py` lines
122-158) on an already-cleaned, non-empty line. -/
def universalStep (chapter source : String) (st : UState) (line : List Char) : UState :=
  if header_match line then st
  else
    match q_any_match line with
    | some (num, rest) =>
      let st := save_current_question chapter source st
      let rest := pyStrip rest
      { st with
        q_num := some num
        buffer := if rest.isEmpty then [] else [rest]
        marks := extract_marks line }
    | none =>
      match option_match line with
      | some (letter, content) =>
        if !st.buffer.isEmpty then
          { st with options := st.options ++ [upperC letter :: ')' :: ' ' :: content] }
        else universalAppend st line
      | none => universalAppend st line

/-- The concatenation `full_text` of `parse_all_docs_v2.py` lines 67-69:
every paragraph text followed by a newline. -/
def universal_full_text (paragraphs : List (List Char)) : List Char :=
  paragraphs.foldr (fun p acc => p ++ '\n' :: acc) []

/-- The line list of `parse_all_docs_v2.py` lines 71-77: substitute page
markers by newlines, split on newlines, clean each line, drop empty lines. -/
def universal_lines (paragraphs : List (List Char)) : List (List Char) :=
  let ft := subAll pageOfAt ['\n'] (subAll pageSlashAt ['\n'] (universal_full_text paragraphs))
  ((splitNl ft).map clean_text).filter (fun l => !l.isEmpty)

/-- `parse_document_universal` from `parse_all_docs_v2.py` lines 61-163,
modelled from the list of paragraph texts of the document. -/
def parse_document_universal (paragraphs : List (List Char))
    (source_name chapter_default : String) : List Question :=
  let st := (universal_lines paragraphs).foldl (universalStep chapter_default source_name) initU
  (save_current_question chapter_default source_name st).questions

end V2

/-- The class `[:\s]` of the answer patterns of both parser modules. -/
def isColonWs (c : Char) : Bool :=
  c == ':' || isPyWs c

/-- Lazy group `(.+?)` under DOTALL followed by a zero-width lookahead: the
shortest non-empty prefix whose following position satisfies `look`.  Returns
the group and the rest (the lookahead position). -/
def lazyUntil (look : List Char → Bool) : List Char → Option (List Char × List Char)
  | [] => none
  | c :: rest =>
    if look rest then some ([c], rest)
    else (lazyUntil look rest).map (fun p => (c :: p.1, p.2))

/-- Lazy group `([cl]+?)` (for an explicit or negated class `cl`) followed by
a zero-width lookahead. -/
def lazyUntilInClass (inCl : Char → Bool) (look : List Char → Bool) :
    List Char → Option (List Char × List Char)
  | [] => none
  | c :: rest =>
    if !inCl c then none
    else if look rest then some ([c], rest)
    else (lazyUntilInClass inCl look rest).map (fun p => (c :: p.1, p.2))

/-- Greedy class run `[cl]+` followed by a lazy group: try the maximal run
first and give characters back one at a time, as the regex engine does.
`tryRunLazy inCl look l k` attempts run lengths `k, k-1, …, 1`. -/
def tryRunLazy (inCl : Char → Bool) (look : List Char → Bool) (l : List Char) :
    Nat → Option (List Char × List Char)
  | 0 => none
  | k + 1 =>
    match lazyUntilInClass inCl look (l.drop (k + 1)) with
    | some p => some p
    | none => tryRunLazy inCl look l k

namespace V2

/-- `(?:Q\.?\s*)?\d+[.\)]` (IGNORECASE), the numbering-marker shape used in
the lookaheads of `parse_chapter_bank` (`parse_all_docs_v2.py` lines 175 and
186).  When the optional `Q` prefix is taken and fails, the prefix-free
alternative must match `\d+` at the letter `Q` and fails too. -/
def qBoundaryAt (l : List Char) : Bool :=
  match l with
  | c :: r =>
    if ciEq c 'q' then
      match digitsGroup (dropWs (optDot r)) with
      | some (_, c2 :: _) => c2 == '.' || c2 == ')'
      | _ => false
    else
      match digitsGroup l with
      | some (_, c2 :: _) => c2 == '.' || c2 == ')'
      | _ => false
  | [] => false

/-- Anchored matcher for one block of the chapter-bank pattern
`(?:Q\.?\s*)?(\d+)[.\)]\s*(.+?)(?=(?:Q\.?\s*)?\d+[.\)]|$)` with
`re.DOTALL | re.IGNORECASE` (`parse_all_docs_v2.py` line 175).  Returns the
two groups and the rest of the text at the match end. -/
def qBlockAt (l : List Char) : Option (List Char × List Char × List Char) := do
  let l1 :=
    match l with
    | c :: r => if ciEq c 'q' then dropWs (optDot r) else l
    | [] => l
  let (d, l2) ← digitsGroup l1
  match l2 with
  | c :: r =>
    if c == '.' || c == ')' then
      let look := fun (s : List Char) => qBoundaryAt s || atEnd s
      let m := (r.takeWhile isPyWs).length
      let after := r.drop m
      if !after.isEmpty then do
        let (content, rest) ← lazyUntil look after
        pure (d, content, rest)
      else if m == 0 then none
      else do
        let (content, rest) ← lazyUntil look (r.drop (m - 1))
        pure (d, content, rest)
    else none
  | [] => none

/-- The `re.findall` scan of `parse_all_docs_v2.py` line 176: non-overlapping
matches, left to right, resuming at each match end. -/
def findallBlocks : Nat → List Char → List (List Char × List Char)
  | 0, _ => []
  | fuel + 1, l =>
    match qBlockAt l with
    | some (d, content, rest) => (d, content) :: findallBlocks fuel rest
    | none =>
      match l with
      | [] => []
      | _ :: t => findallBlocks fuel t

/-- Anchored matcher for the inline-answer pattern
`(?:Ans(?:wer)?|Correct\s*Answer)[:\s]+(.+?)(?=\s*(?:Q\.?\s*)?\d+[.\)]|$)`
(IGNORECASE, no DOTALL), `parse_all_docs_v2.py` line 186.  Returns group 1. -/
def ansInlineAt (l : List Char) : Option (List Char) :=
  let look := fun (s : List Char) => qBoundaryAt (dropWs s) || atEnd s
  let cont := fun (r : List Char) =>
    (tryRunLazy (fun c => c != '\n') look r (r.takeWhile isColonWs).length).map Prod.fst
  ((litCI "Answer".toList l).bind cont) <|>
  ((litCI "Ans".toList l).bind cont) <|>
  (((litCI "Correct".toList l).bind
      (fun r => litCI "Answer".toList (dropWs r))).bind cont)

/-- `[(\[]?[a-dA-D][)\].\s]`, the option-start shape: used both as the
lookahead of the option scan (line 193) and as the `first_opt` search pattern
(line 198) of `parse_all_docs_v2.py`. -/
def optStartAt (l : List Char) : Bool :=
  match l with
  | c :: c2 :: r =>
    if c == '(' || c == '[' then isOptLetter c2 && (match r with | c3 :: _ => isOptPunct c3 | [] => false)
    else isOptLetter c && isOptPunct c2
  | _ => false

/-- The content class `[^(\[a-dA-D]` of the inline option pattern. -/
def isOptContentChar (c : Char) : Bool :=
  !(c == '(' || c == '[' || isOptLetter c)

/-- Anchored matcher for one inline option,
`[(\[]?([a-dA-D])[)\].\s]+([^(\[a-dA-D]+?)(?=[(\[]?[a-dA-D][)\].\s]|$)`
(`parse_all_docs_v2.py` line 193).  Returns the letter, the raw content and
the rest at the match end. -/
def optInlineAt (l : List Char) : Option (Char × List Char × List Char) := do
  let (letter, l1) ←
    match l with
    | c :: r =>
      if c == '(' || c == '[' then
        match r with
        | c2 :: r2 => if isOptLetter c2 then some (c2, r2) else none
        | [] => none
      else if isOptLetter c then some (c, r) else none
    | [] => none
  let look := fun (s : List Char) => optStartAt s || atEnd s
  let (content, rest) ←
    tryRunLazy isOptContentChar look l1 (l1.takeWhile isOptPunct).length
  pure (letter, content, rest)

/-- The `re.finditer` scan of `parse_all_docs_v2.py` lines 193-194: collect
every non-overlapping inline option, already formatted as
`f"{letter.upper()}) {clean_text(content)}"`. -/
def finditerOptions : Nat → List Char → List (List Char)
  | 0, _ => []
  | fuel + 1, l =>
    match optInlineAt l with
    | some (letter, content, rest) =>
      (upperC letter :: ')' :: ' ' :: clean_text content) :: finditerOptions fuel rest
    | none =>
      match l with
      | [] => []
      | _ :: t => finditerOptions fuel t

/-- Anchored matcher for `\s*\[?\d+\s*(?:mark|marks|m)?\]?\s*$` (IGNORECASE),
the final trailing strip of `parse_chapter_bank` (`parse_all_docs_v2.py`
line 206). -/
def chapterBankTrailAt (l : List Char) : Option (List Char) := do
  let l0 := dropWs l
  let l1 := match l0 with | '[' :: r => r | _ => l0
  let (_, r) ← digitsGroup l1
  let r := dropWs r
  let close := fun (s : List Char) =>
    match s with
    | ']' :: rr => wsEnd rr
    | _ => wsEnd s
  ((litCI "mark".toList r).bind close) <|> ((litCI "marks".toList r).bind close) <|>
  ((litCI "m".toList r).bind close) <|> close r

/-- The per-block record construction of `parse_chapter_bank`
(`parse_all_docs_v2.py` lines 178-217). -/
def chapterBankRecord (chapter_name : String) (q_content_raw : List Char) : Option Question :=
  let q_content := clean_text q_content_raw
  if q_content.length < 15 then none
  else
    let (answer, q_content) :=
      match findSplit ansInlineAt q_content with
      | some (pre, grp) => (some (clean_text grp), pyStrip pre)
      | none => (none, q_content)
    let options := finditerOptions (q_content.length + 1) q_content
    let q_content :=
      if !options.isEmpty then
        match findSplit (fun s => if optStartAt s then some () else none) q_content with
        | some (pre, _) => pyStrip pre
        | none => q_content
      else q_content
    let q_type := detect_question_type q_content options
    let marks := pyOr (extract_marks q_content) (if q_type == "mcq" then 1 else 2)
    let q_content := pyStrip (subAll chapterBankTrailAt [] q_content)
    if 15 < q_content.length then
      some { questionText := q_content.asString
             type := q_type
             marks := marks
             options := if options.isEmpty then none else some (options.map List.asString)
             correctAnswer := answer.map List.asString
             chapter := chapter_name
             source := some ("Chapter Bank - " ++ chapter_name) }
    else none

/-- `parse_chapter_bank` from `parse_all_docs_v2.py` lines 165-219, modelled
from the list of paragraph texts of the document. -/
def parse_chapter_bank (paragraphs : List (List Char)) (chapter_name : String) : List Question :=
  let ft := List.intercalate ['\n'] paragraphs
  (findallBlocks (ft.length + 1) ft).filterMap
    (fun b => chapterBankRecord chapter_name b.2)

end V2

namespace V1

/-- `clean_text` from `parse_all_docs.py` lines 14-20: remove page markers of
the `Page:n/m` shape (replaced by the empty string), then
`' '.join(text.split())`, then `strip()`. -/
def clean_text (l : List Char) : List Char :=
  pyStrip (joinSpace (pySplit (subAll pageSlashAt [] l)))

/-- `extract_marks` from `parse_all_docs.py` lines 22-34: the same first four
patterns as the v2 extractor, without the `Marks\s*(\d+)` label form. -/
def extract_marks (l : List Char) : Option Nat :=
  searchVal marksBracketAt l <|> searchVal marksParenAt l <|>
  searchVal marksTrailingAt l <|> searchVal bareBracketAt l

/-- `detect_question_type` from `parse_all_docs.py` lines 36-59 (textually the
same decision chain as the v2 classifier, but calling the v1 marks
extractor). -/
def detect_question_type (text : List Char) (options : List (List Char)) : String :=
  let tl := pyLower text
  if !options.isEmpty && 2 ≤ options.length then "mcq"
  else if containsSub tl "true or false".toList || containsSub tl "true/false".toList then
    "true_false"
  else if containsSub tl "assertion".toList && containsSub tl "reason".toList then
    "assertion_reason"
  else if containsSub tl "fill in".toList || containsSub tl "fill up".toList then
    "fill_blank"
  else if containsSub tl "match".toList && containsSub tl "column".toList then
    "matching"
  else
    match extract_marks text with
    | some m =>
      if m != 0 then
        if 4 ≤ m then "long_answer" else if 2 ≤ m then "short_answer" else "short_answer"
      else "short_answer"
    | none => "short_answer"

/-- Anchored matcher for `^(?:Q\.?\s*)?(\d+)[.\)]\s*(.+)` (case-sensitive),
the chapter-bank question boundary of `parse_all_docs.py` line 80.  When the
optional `Q` prefix is taken and no digits follow, the prefix-free alternative
would have to match `\d+` at the letter `Q` and fails as well. -/
def chapterQAt (l : List Char) : Option (List Char × List Char) := do
  let l1 :=
    match l with
    | 'Q' :: r => dropWs (optDot r)
    | _ => l
  let (d, l2) ← digitsGroup l1
  match l2 with
  | c :: r =>
    if c == '.' || c == ')' then do
      let content ← wsContentSplit r
      pure (d, content)
    else none
  | [] => none

/-- Anchored matcher for `^(?:Ans(?:wer)?|Correct\s*Answer)[:\s]+(.+)`
(IGNORECASE), `parse_all_docs.py` line 107, returning group 1.  Alternative
order: `Answer` (greedy optional `wer`), `Ans`, `Correct\s*Answer`. -/
def ansAt (l : List Char) : Option (List Char) :=
  ((litCI "Answer".toList l).bind (classRunContent isColonWs)) <|>
  ((litCI "Ans".toList l).bind (classRunContent isColonWs)) <|>
  (((litCI "Correct".toList l).bind
      (fun r => litCI "Answer".toList (dropWs r))).bind (classRunContent isColonWs))

/-- Anchored matcher for `\[?\d+\s*(?:mark|marks|m)?\]?$` (IGNORECASE), the
trailing-annotation strip of `parse_all_docs.py` lines 87 and 121.  The
alternation of the optional group is tried in the order `mark`, `marks`, `m`,
absent; `\]?$` is deterministic. -/
def chapterTrailAt (l : List Char) : Option (List Char) := do
  let l1 := match l with | '[' :: r => r | _ => l
  let (_, r) ← digitsGroup l1
  let r := dropWs r
  let close := fun (s : List Char) =>
    match s with
    | ']' :: rr => if atEnd rr then some rr else none
    | _ => if atEnd s then some s else none
  ((litCI "mark".toList r).bind close) <|> ((litCI "marks".toList r).bind close) <|>
  ((litCI "m".toList r).bind close) <|> close r

/-- Python truthiness of the `current_question` variable: a string that is
both present and non-empty. -/
def cTruthy (o : Option (List Char)) : Bool :=
  match o with
  | some t => !t.isEmpty
  | none => false

/-- The mutable accumulators of `parse_chapter_question_bank` together with
the growing `questions` list. -/
structure CState where
  current_question : Option (List Char)
  current_options : List (List Char)
  current_answer : Option (List Char)
  questions : List Question
  deriving Repr

/-- Initial state of the chapter-bank loop. -/
def initC : CState :=
  { current_question := none, current_options := [], current_answer := none, questions := [] }

/-- The record-building block of `parse_chapter_question_bank`
(`parse_all_docs.py` lines 83-93 and, identically, 117-127): emitted whenever
`current_question` is truthy, with no minimum-length test. -/
def chapter_finalize (chapter : String) (cur : Option (List Char))
    (opts : List (List Char)) (ans : Option (List Char)) : Option Question :=
  match cur with
  | some t =>
    if t.isEmpty then none
    else
      let q_type := detect_question_type t opts
      some { questionText := (pyStrip (subAll chapterTrailAt [] t)).asString
             type := q_type
             marks := pyOr (extract_marks t) (if q_type == "mcq" then 1 else 2)
             options := if opts.isEmpty then none else some (opts.map List.asString)
             correctAnswer := ans.map List.asString
             chapter := chapter
             source := none }
  | none => none

/-- The answer-detection and body-append branches of the chapter-bank loop
(`parse_all_docs.py` lines 106-114). -/
def chapterStepTail (st : CState) (line : List Char) : CState :=
  match ansAt line with
  | some a => { st with current_answer := some (pyStrip a) }
  | none =>
    match st.current_question with
    | some t => if t.isEmpty then st else { st with current_question := some (t ++ ' ' :: line) }
    | none => st

/-- One iteration of the chapter-bank loop (`parse_all_docs.py` lines 74-114)
on a raw line: clean it, then question boundary / option / answer / append. -/
def chapterStep (chapter : String) (st : CState) (raw : List Char) : CState :=
  let line := clean_text raw
  if line.isEmpty then st
  else
    match chapterQAt line with
    | some (_, content) =>
      { questions :=
          match chapter_finalize chapter st.current_question st.current_options st.current_answer with
          | some q => st.questions ++ [q]
          | none => st.questions
        current_question := some content
        current_options := []
        current_answer := none }
    | none =>
      match option_match line with
      | some (letter, content) =>
        if cTruthy st.current_question then
          { st with current_options := st.current_options ++ [letter :: ')' :: ' ' :: content] }
        else chapterStepTail st line
      | none => chapterStepTail st line

/-- The raw line list of `parse_chapter_question_bank` (`parse_all_docs.py`
lines 69-72): join the paragraphs with newlines and split back on newlines. -/
def chapter_lines (paragraphs : List (List Char)) : List (List Char) :=
  splitNl (List.intercalate ['\n'] paragraphs)

/-- `parse_chapter_question_bank` from `parse_all_docs.py` lines 61-129,
modelled from the list of paragraph texts of the document. -/
def parse_chapter_question_bank (paragraphs : List (List Char)) (chapter_name : String) :
    List Question :=
  let st := (chapter_lines paragraphs).foldl (chapterStep chapter_name) initC
  match chapter_finalize chapter_name st.current_question st.current_options st.current_answer with
  | some q => st.questions ++ [q]
  | none => st.questions

/-- The header/section denylist of `parse_all_docs.py` line 153:
`^(Section|SECTION|General Instructions|Time|Maximum Marks|CLASS|COMPUTER SCIENCE)`,
case-sensitive. -/
def paper_header (l : List Char) : Bool :=
  (litCS "Section".toList l).isSome || (litCS "SECTION".toList l).isSome ||
  (litCS "General Instructions".toList l).isSome || (litCS "Time".toList l).isSome ||
  (litCS "Maximum Marks".toList l).isSome || (litCS "CLASS".toList l).isSome ||
  (litCS "COMPUTER SCIENCE".toList l).isSome

/-- Anchored matcher for `^(\d+)[.\)]\s*(.+)`, the question boundary of
`parse_question_paper` (`parse_all_docs.py` line 157). -/
def paperQAt (l : List Char) : Option (List Char × List Char) := do
  let (d, l2) ← digitsGroup l
  match l2 with
  | c :: r =>
    if c == '.' || c == ')' then do
      let content ← wsContentSplit r
      pure (d, content)
    else none
  | [] => none

/-- The mutable accumulators of `parse_question_paper` together with the
growing `questions` list. -/
structure PState where
  current_question : Option (List Char)
  current_options : List (List Char)
  current_marks : Option Nat
  in_options : Bool
  questions : List Question
  deriving Repr

/-- Initial state of the simple-paper loop. -/
def initP : PState :=
  { current_question := none, current_options := [], current_marks := none,
    in_options := false, questions := [] }

/-- The record-building block of `parse_question_paper` (`parse_all_docs.py`
lines 160-172 and, identically, 197-209): emitted when `current_question` is
truthy and longer than 10 characters. -/
def paper_finalize (source : String) (cur : Option (List Char))
    (opts : List (List Char)) (marks : Option Nat) : Option Question :=
  match cur with
  | some t =>
    if !t.isEmpty && 10 < t.length then
      let q_type := detect_question_type t opts
      some { questionText := t.asString
             type := q_type
             marks := pyOr marks (if q_type == "mcq" then 1 else 2)
             options := if opts.isEmpty then none else some (opts.map List.asString)
             correctAnswer := none
             chapter := "Mixed"
             source := some source }
    else none
  | none => none

/-- The `OR`-marker and body-append branches of the paper loop
(`parse_all_docs.py` lines 188-194); the body is appended only outside option
mode. -/
def paperStepTail (st : PState) (line : List Char) : PState :=
  if or_marker line then st
  else
    match st.current_question with
    | some t =>
      if !t.isEmpty && !st.in_options then
        { st with current_question := some (t ++ ' ' :: line) }
      else st
    | none => st

/-- One iteration of the simple-paper loop (`parse_all_docs.py` lines
147-194) on a raw line. -/
def paperStep (source : String) (st : PState) (raw : List Char) : PState :=
  let line := clean_text raw
  if line.isEmpty then st
  else if paper_header line then st
  else
    match paperQAt line with
    | some (_, content) =>
      { current_question := some content
        current_options := []
        current_marks := extract_marks line
        in_options := false
        questions :=
          match paper_finalize source st.current_question st.current_options st.current_marks with
          | some q => st.questions ++ [q]
          | none => st.questions }
    | none =>
      match option_match line with
      | some (letter, content) =>
        if cTruthy st.current_question then
          { st with
            current_options := st.current_options ++ [upperC letter :: ')' :: ' ' :: content]
            in_options := true }
        else paperStepTail st line
      | none => paperStepTail st line

/-- The raw line list of `parse_question_paper` (`parse_all_docs.py` lines
136-140): join the paragraphs with newlines, substitute page markers by
newlines, split on newlines. -/
def paper_lines (paragraphs : List (List Char)) : List (List Char) :=
  splitNl (subAll pageSlashAt ['\n'] (List.intercalate ['\n'] paragraphs))

/-- `parse_question_paper` from `parse_all_docs.py` lines 131-211, modelled
from the list of paragraph texts of the document. -/
def parse_question_paper (paragraphs : List (List Char)) (paper_name : String) :
    List Question :=
  let st := (paper_lines paragraphs).foldl (paperStep paper_name) initP
  match paper_finalize paper_name st.current_question st.current_options st.current_marks with
  | some q => st.questions ++ [q]
  | none => st.questions

end V1

/-- The deduplication fingerprint of `parse_all_docs_v2.py` line 269:
`q["questionText"][:100].lower().strip()`. -/
def fingerprint (q : Question) : List Char :=
  pyStrip (pyLower (q.questionText.toList.take 100))

/-- The deduplication fold of `main` (`parse_all_docs_v2.py` lines 265-272):
a `seen` set of fingerprints and an output list that receives each record
whose fingerprint has not been seen before. -/
def dedup_questions (qs : List Question) : List Question :=
  (qs.foldl
    (fun (acc : List (List Char) × List Question) q =>
      let h := fingerprint q
      if h ∈ acc.1 then acc else (h :: acc.1, acc.2 ++ [q]))
    ([], [])).2

/-- Modelled from the spec's words (§3/§4.8): for each fingerprint exactly
the first record encountered is retained, every later record with the same
fingerprint is dropped, and the retained records keep their relative order. -/
def dedupFirstOccurrence : List Question → List Question
  | [] => []
  | q :: rest =>
    q :: dedupFirstOccurrence (rest.filter (fun r => fingerprint r != fingerprint q))
termination_by qs => qs.length
decreasing_by
  simp only [List.length_cons]
  exact Nat.lt_succ_of_le (List.length_filter_le _ _)

/-- Recursion form of the deduplication fold, threading the `seen` set of
fingerprints explicitly. -/
def dedupGo (seen : List (List Char)) : List Question → List Question
  | [] => []
  | q :: rest =>
    if fingerprint q ∈ seen then dedupGo seen rest
    else q :: dedupGo (fingerprint q :: seen) rest

/-! ## Claim theorems -/

/-- C1: round-trip on well-formed input.  On exactly the four lines
`"1. What is inheritance? [2]"`, `"(a) concept one"`, `"(b) concept two"`,
`"2. Explain polymorphism with an example."` the universal segmentation
strategy emits exactly two records: the first with question text
`"What is inheritance?"`, type `mcq`, marks 2 and options
`["A) concept one", "B) concept two"]`; the second with question text
`"Explain polymorphism with an example."`, type `short_answer` and the
non-mcq default marks 2. -/
theorem C1_round_trip :
    V2.parse_document_universal
      (["1. What is inheritance? [2]", "(a) concept one", "(b) concept two",
        "2. Explain polymorphism with an example."].map String.toList)
      "SQP 2024-25" "Mixed" =
    [{ questionText := "What is inheritance?", type := "mcq", marks := 2,
       options := some ["A) concept one", "B) concept two"], correctAnswer := none,
       chapter := "Mixed", source := some "SQP 2024-25" },
     { questionText := "Explain polymorphism with an example.", type := "short_answer",
       marks := 2, options := none, correctAnswer := none,
       chapter := "Mixed", source := some "SQP 2024-25" }] := by
  decide

/-- C5: end-to-end chapter-bank extraction with an inline answer.  On the
document text `"1. What is a lambda function? Ans: A function defined with no
name."` the structured chapter-bank strategy yields exactly one record whose
`correctAnswer` is `"A function defined with no name."` and whose
`questionText` is the text truncated before the `Ans:` marker. -/
theorem C5_chapter_bank_inline_answer :
    V2.parse_chapter_bank
      (["1. What is a lambda function? Ans: A function defined with no name."].map
        String.toList) "Functions" =
    [{ questionText := "What is a lambda function?", type := "short_answer", marks := 2,
       options := none, correctAnswer := some "A function defined with no name.",
       chapter := "Functions", source := some "Chapter Bank - Functions" }] := by
  decide

/-- C4 counterexample: the claim says a candidate body of length `≤ 15` is
discarded under the simple-paper strategy, but `parse_question_paper` only
discards bodies of length `≤ 10`: the 12-character body `"abcdefghijkl"` is
emitted as a record. -/
theorem C4_counterexample :
    V1.parse_question_paper (["1. abcdefghijkl"].map String.toList) "P" =
    [{ questionText := "abcdefghijkl", type := "short_answer", marks := 2,
       options := none, correctAnswer := none, chapter := "Mixed",
       source := some "P" }] := by
  decide

/-- C6 counterexample: `clean_text` is not idempotent.  On
`"Page: Page: 1/2 3/4"` the first pass consumes `"Page: 1/2"` and leaves
`"Page: 3/4"` (replacement text is not rescanned by `re.sub`), which a second
pass erases entirely — in both parser modules. -/
theorem C6_counterexample :
    V2.clean_text (V2.clean_text "Page: Page: 1/2 3/4".toList) ≠
      V2.clean_text "Page: Page: 1/2 3/4".toList ∧
    V1.clean_text (V1.clean_text "Page: Page: 1/2 3/4".toList) ≠
      V1.clean_text "Page: Page: 1/2 3/4".toList := by
  decide

/-- C7 counterexample: the claim says every emitted record with a present
`options` field has at least 2 entries and type `mcq`, but the universal
strategy emits a record with a single collected option and type
`short_answer` when a question is followed by exactly one lettered line. -/
theorem C7_counterexample :
    V2.parse_document_universal
      (["1. What is the capital of France?", "(a) Paris"].map String.toList) "S" "Mixed" =
    [{ questionText := "What is the capital of France?", type := "short_answer",
       marks := 2, options := some ["A) Paris"], correctAnswer := none,
       chapter := "Mixed", source := some "S" }] := by
  decide

/-- C8 counterexample: the claim says a denylist line such as
`"Section A: General Instructions"` never contributes to a question body in
every line-based strategy, but `parse_chapter_question_bank` has no header
denylist and appends the line to the open question's body. -/
theorem C8_counterexample :
    V1.parse_chapter_question_bank
      (["1. Define recursion in programming.",
        "Section A: General Instructions"].map String.toList) "Ch" =
    [{ questionText := "Define recursion in programming. Section A: General Instructions",
       type := "short_answer", marks := 2, options := none, correctAnswer := none,
       chapter := "Ch", source := none }] := by
  decide

/-- C9 counterexample: the claim says the `Marks <n>` label form is
recognized only by the structured extractor, so that segmentation strategies
fall back to the by-type default; but the universal segmentation strategy uses
the v2 `extract_marks`, whose fifth pattern is `Marks\s*(\d+)`, and records
marks 5 (not the default 2) from a line whose only mark shape is `Marks 5`. -/
theorem C9_counterexample :
    V2.parse_document_universal
      (["1. Explain inheritance briefly Marks 5"].map String.toList) "S" "Mixed" =
    [{ questionText := "Explain inheritance briefly", type := "short_answer", marks := 5,
       options := none, correctAnswer := none, chapter := "Mixed",
       source := some "S" }] := by
  decide

/-- C3: option dominance.  For every question text and every option list with
at least 2 entries, both type classifiers return `mcq`, regardless of any
keywords or marks annotations present in the text. -/
theorem C3_option_dominance (text : List Char) (options : List (List Char))
    (h : 2 ≤ options.length) :
    V2.detect_question_type text options = "mcq" ∧
    V1.detect_question_type text options = "mcq" := by
  have hne : options.isEmpty = false := by
    cases options with
    | nil => simp at h
    | cons a t => rfl
  constructor <;> simp [V2.detect_question_type, V1.detect_question_type, hne, h]

/-- Witness for C3 at a text full of competing keywords and a 2-entry option
list. -/
theorem C3_option_dominance_witness :
    2 ≤ (["A) yes", "B) no"].map String.toList).length ∧
    (V2.detect_question_type "State true or false and match the column [5]".toList
        (["A) yes", "B) no"].map String.toList) = "mcq" ∧
     V1.detect_question_type "State true or false and match the column [5]".toList
        (["A) yes", "B) no"].map String.toList) = "mcq") :=
  ⟨by decide,
   C3_option_dominance "State true or false and match the column [5]".toList
     (["A) yes", "B) no"].map String.toList) (by decide)⟩

/-- C9 amended: the `Marks <n>` label form is the fifth pattern of the v2
marks extractor — shared by the universal segmentation strategy and the
structured extractor — while the v1 extractor (used by the v1 segmentation
strategies) lacks it: on text where no other candidate shape matches, the v2
extractor returns the labelled value and the v1 extractor returns none (so
the by-type default applies only in the v1 strategies). -/
theorem C9_marks_label_amended (t : List Char) (n : Nat)
    (h1 : findSplit marksBracketAt t = none) (h2 : findSplit marksParenAt t = none)
    (h3 : findSplit marksTrailingAt t = none) (h4 : findSplit bareBracketAt t = none)
    (h5 : searchVal marksLabelAt t = some n) :
    V2.extract_marks t = some n ∧ V1.extract_marks t = none := by
  have h5' : (findSplit marksLabelAt t).map (fun p => p.2.1) = some n := by
    simpa [searchVal] using h5
  constructor <;>
    simp [V2.extract_marks, V1.extract_marks, searchVal, h1, h2, h3, h4, h5']

/-- Witness for C9 at the text `"Marks 5"`. -/
theorem C9_marks_label_amended_witness :
    (findSplit marksBracketAt "Marks 5".toList = none ∧
     findSplit marksParenAt "Marks 5".toList = none ∧
     findSplit marksTrailingAt "Marks 5".toList = none ∧
     findSplit bareBracketAt "Marks 5".toList = none ∧
     searchVal marksLabelAt "Marks 5".toList = some 5) ∧
    (V2.extract_marks "Marks 5".toList = some 5 ∧
     V1.extract_marks "Marks 5".toList = none) :=
  ⟨⟨by decide, by decide, by decide, by decide, by decide⟩,
   C9_marks_label_amended "Marks 5".toList 5 (by decide) (by decide) (by decide)
     (by decide) (by decide)⟩

/-- C8 amended: a line matching the header denylist is skipped entirely — it
neither starts a question nor contributes to any body — in the universal and
simple-paper strategies (whose loops test the denylist first); the
chapter-bank line-based strategy has no denylist, and such a line is appended
to an open question's body (see the C8 counterexample). -/
theorem C8_header_skip_amended (ch src name : String) (stU : V2.UState)
    (stP : V1.PState) (line raw : List Char)
    (hU : V2.header_match line = true)
    (hP : V1.paper_header (V1.clean_text raw) = true) :
    V2.universalStep ch src stU line = stU ∧ V1.paperStep name stP raw = stP := by
  constructor
  · simp [V2.universalStep, hU]
  · have hne : (V1.clean_text raw).isEmpty = false := by
      cases hc : V1.clean_text raw with
      | nil => rw [hc] at hP; simp [V1.paper_header, litCS] at hP
      | cons a t => rfl
    simp [V1.paperStep, hne, hP]

/-- Witness for C8 at the line `"Section A: General Instructions"` and the
initial loop states. -/
theorem C8_header_skip_amended_witness :
    (V2.header_match "Section A: General Instructions".toList = true ∧
     V1.paper_header (V1.clean_text "Section A: General Instructions".toList) = true) ∧
    (V2.universalStep "C" "S" V2.initU "Section A: General Instructions".toList = V2.initU ∧
     V1.paperStep "P" V1.initP "Section A: General Instructions".toList = V1.initP) :=
  ⟨⟨by decide, by decide⟩,
   C8_header_skip_amended "C" "S" "P" V2.initU V1.initP
     "Section A: General Instructions".toList "Section A: General Instructions".toList
     (by decide) (by decide)⟩

/-- C4 amended: on finalize, the universal strategy discards a candidate
whose stripped body has length `≤ 15` and emits it otherwise; the simple-paper
strategy discards bodies of length `≤ 10` and emits those longer than 10 (so
bodies of length 11-15 are emitted, contrary to the claim); the chapter-bank
line-based strategy applies no minimum-length discard at all: every nonempty
open candidate is emitted. -/
theorem C4_min_length_amended (ch src name : String) (buffer opts : List (List Char))
    (marks : Option Nat) (t : List Char) (ans : Option (List Char)) :
    (buffer.isEmpty = false → (V2.question_body buffer).length ≤ 15 →
      V2.finalize_question ch src buffer opts marks = none) ∧
    (buffer.isEmpty = false → 15 < (V2.question_body buffer).length →
      (V2.finalize_question ch src buffer opts marks).isSome = true) ∧
    (t.length ≤ 10 → V1.paper_finalize name (some t) opts marks = none) ∧
    (10 < t.length → (V1.paper_finalize name (some t) opts marks).isSome = true) ∧
    (t.isEmpty = false → (V1.chapter_finalize ch (some t) opts ans).isSome = true) := by
  refine ⟨?_, ?_, ?_, ?_, ?_⟩
  · intro h1 h2
    simp only [V2.finalize_question, h1, Bool.false_eq_true, if_false]
    rw [if_neg (by omega)]
  · intro h1 h2
    simp [V2.finalize_question, h1, h2]
  · intro h
    simp [V1.paper_finalize, show ¬(10 < t.length) from by omega]
  · intro h
    have hne : t.isEmpty = false := by
      cases t with
      | nil => simp at h
      | cons a r => rfl
    simp [V1.paper_finalize, hne, h]
  · intro h
    simp [V1.chapter_finalize, h]

/-- Witness for C4 at concrete bodies of lengths 10, 16, 10, 11 and 2. -/
theorem C4_min_length_amended_witness :
    V2.finalize_question "C" "S" ["abcdefghij".toList] [] none = none ∧
    (V2.finalize_question "C" "S" ["abcdefghijklmnop".toList] [] none).isSome = true ∧
    V1.paper_finalize "P" (some "abcdefghij".toList) [] none = none ∧
    (V1.paper_finalize "P" (some "abcdefghijk".toList) [] none).isSome = true ∧
    (V1.chapter_finalize "C" (some "ab".toList) [] none).isSome = true :=
  ⟨(C4_min_length_amended "C" "S" "P" ["abcdefghij".toList] [] none [] none).1
      (by decide) (by decide),
   (C4_min_length_amended "C" "S" "P" ["abcdefghijklmnop".toList] [] none [] none).2.1
      (by decide) (by decide),
   (C4_min_length_amended "C" "S" "P" [] [] none "abcdefghij".toList none).2.2.1
      (by decide),
   (C4_min_length_amended "C" "S" "P" [] [] none "abcdefghijk".toList none).2.2.2.1
      (by decide),
   (C4_min_length_amended "C" "S" "P" [] [] none "ab".toList none).2.2.2.2
      (by decide)⟩

/-- With no open question (empty buffer, no question number) a line that
matches no boundary pattern leaves the universal loop state unchanged. -/
theorem universalStep_skip (ch src : String) (st : V2.UState) (line : List Char)
    (h : V2.q_any_match line = none) (hb : st.buffer = []) (hq : st.q_num = none) :
    V2.universalStep ch src st line = st := by
  have hA : V2.universalAppend st line = st := by
    simp [V2.universalAppend, hb, hq]
  cases hH : V2.header_match line with
  | true => simp [V2.universalStep, hH]
  | false =>
    cases hO : option_match line with
    | none => simp [V2.universalStep, hH, h, hO, hA]
    | some p => simp [V2.universalStep, hH, h, hO, hb, hA]

/-- Folding the universal loop over boundary-free lines from a state with no
open question changes nothing. -/
theorem universal_foldl_skip (ch src : String) :
    ∀ (lines : List (List Char)) (st : V2.UState),
      (∀ l ∈ lines, V2.q_any_match l = none) → st.buffer = [] → st.q_num = none →
      lines.foldl (V2.universalStep ch src) st = st := by
  intro lines
  induction lines with
  | nil => intro st _ _ _; rfl
  | cons l rest ih =>
    intro st hall hb hq
    rw [List.foldl_cons, universalStep_skip ch src st l (hall l (by simp)) hb hq]
    exact ih st (fun x hx => hall x (by simp [hx])) hb hq

/-- With no open question a line that matches no paper boundary leaves the
simple-paper loop state unchanged. -/
theorem paperStep_skip (name : String) (st : V1.PState) (raw : List Char)
    (h : V1.paperQAt (V1.clean_text raw) = none) (hc : st.current_question = none) :
    V1.paperStep name st raw = st := by
  have hT : V1.paperStepTail st (V1.clean_text raw) = st := by
    simp [V1.paperStepTail, hc]
  cases hO : option_match (V1.clean_text raw) with
  | none => simp [V1.paperStep, h, hO, hT]
  | some p => simp [V1.paperStep, h, hO, hc, V1.cTruthy, hT]

/-- Folding the simple-paper loop over boundary-free lines from a state with
no open question changes nothing. -/
theorem paper_foldl_skip (name : String) :
    ∀ (lines : List (List Char)) (st : V1.PState),
      (∀ raw ∈ lines, V1.paperQAt (V1.clean_text raw) = none) →
      st.current_question = none →
      lines.foldl (V1.paperStep name) st = st := by
  intro lines
  induction lines with
  | nil => intro st _ _; rfl
  | cons l rest ih =>
    intro st hall hc
    rw [List.foldl_cons, paperStep_skip name st l (hall l (by simp)) hc]
    exact ih st (fun x hx => hall x (by simp [hx])) hc

/-- With no open question a line that matches no chapter boundary keeps the
chapter-bank loop's question closed and its emitted list unchanged (the
answer accumulator may still change). -/
theorem chapterStep_skip (ch : String) (st : V1.CState) (raw : List Char)
    (h : V1.chapterQAt (V1.clean_text raw) = none) (hc : st.current_question = none) :
    (V1.chapterStep ch st raw).current_question = none ∧
    (V1.chapterStep ch st raw).questions = st.questions := by
  have hT : (V1.chapterStepTail st (V1.clean_text raw)).current_question = none ∧
      (V1.chapterStepTail st (V1.clean_text raw)).questions = st.questions := by
    cases hA : V1.ansAt (V1.clean_text raw) with
    | none => simp [V1.chapterStepTail, hA, hc]
    | some a => simp [V1.chapterStepTail, hA, hc]
  by_cases hE : V1.clean_text raw = []
  · simp [V1.chapterStep, hE, hc]
  · cases hO : option_match (V1.clean_text raw) with
    | none => simp [V1.chapterStep, h, hO, hE, hT.1, hT.2]
    | some p => simp [V1.chapterStep, h, hO, hE, hc, V1.cTruthy, hT.1, hT.2]

/-- Folding the chapter-bank loop over boundary-free lines never opens a
question and never emits a record. -/
theorem chapter_foldl_skip (ch : String) :
    ∀ (lines : List (List Char)) (st : V1.CState),
      (∀ raw ∈ lines, V1.chapterQAt (V1.clean_text raw) = none) →
      st.current_question = none →
      (lines.foldl (V1.chapterStep ch) st).current_question = none ∧
      (lines.foldl (V1.chapterStep ch) st).questions = st.questions := by
  intro lines
  induction lines with
  | nil => intro st _ hc; exact ⟨hc, rfl⟩
  | cons l rest ih =>
    intro st hall hc
    rw [List.foldl_cons]
    obtain ⟨h1, h2⟩ := chapterStep_skip ch st l (hall l (by simp)) hc
    obtain ⟨ih1, ih2⟩ := ih (V1.chapterStep ch st l) (fun x hx => hall x (by simp [hx])) h1
    exact ⟨ih1, by rw [ih2, h2]⟩

/-- C10: if no line of a document matches the respective question-boundary
patterns, then each line-based strategy — universal, simple-paper and
chapter-bank — emits zero records for that document, no matter how many
option-shaped lines, answer lines or prose lines it contains. -/
theorem C10_no_boundary_no_records (paragraphs : List (List Char))
    (src ch pname cname : String)
    (h1 : ∀ l ∈ V2.universal_lines paragraphs, V2.q_any_match l = none)
    (h2 : ∀ raw ∈ V1.paper_lines paragraphs, V1.paperQAt (V1.clean_text raw) = none)
    (h3 : ∀ raw ∈ V1.chapter_lines paragraphs, V1.chapterQAt (V1.clean_text raw) = none) :
    V2.parse_document_universal paragraphs src ch = [] ∧
    V1.parse_question_paper paragraphs pname = [] ∧
    V1.parse_chapter_question_bank paragraphs cname = [] := by
  refine ⟨?_, ?_, ?_⟩
  · rw [V2.parse_document_universal,
      universal_foldl_skip ch src (V2.universal_lines paragraphs) V2.initU h1 rfl rfl]
    rfl
  · rw [V1.parse_question_paper,
      paper_foldl_skip pname (V1.paper_lines paragraphs) V1.initP h2 rfl]
    rfl
  · obtain ⟨hq, hqs⟩ :=
      chapter_foldl_skip cname (V1.chapter_lines paragraphs) V1.initC h3 rfl
    rw [V1.parse_chapter_question_bank, hq]
    exact hqs

/-- Witness for C10 on a document of an option line, an answer line and a
prose line, none of which matches a boundary pattern. -/
theorem C10_no_boundary_no_records_witness :
    ((∀ l ∈ V2.universal_lines (["(a) alpha", "Ans: beta", "plain prose text"].map
        String.toList), V2.q_any_match l = none) ∧
     (∀ raw ∈ V1.paper_lines (["(a) alpha", "Ans: beta", "plain prose text"].map
        String.toList), V1.paperQAt (V1.clean_text raw) = none) ∧
     (∀ raw ∈ V1.chapter_lines (["(a) alpha", "Ans: beta", "plain prose text"].map
        String.toList), V1.chapterQAt (V1.clean_text raw) = none)) ∧
    (V2.parse_document_universal (["(a) alpha", "Ans: beta", "plain prose text"].map
        String.toList) "S" "M" = [] ∧
     V1.parse_question_paper (["(a) alpha", "Ans: beta", "plain prose text"].map
        String.toList) "P" = [] ∧
     V1.parse_chapter_question_bank (["(a) alpha", "Ans: beta", "plain prose text"].map
        String.toList) "C" = []) :=
  ⟨⟨by decide, by decide, by decide⟩,
   C10_no_boundary_no_records (["(a) alpha", "Ans: beta", "plain prose text"].map
      String.toList) "S" "M" "P" "C" (by decide) (by decide) (by decide)⟩

/-- The deduplication fold equals the explicit recursion `dedupGo`. -/
theorem dedup_foldl_go (qs : List Question) : ∀ (seen : List (List Char)) (out : List Question),
    (qs.foldl
      (fun (acc : List (List Char) × List Question) q =>
        let h := fingerprint q
        if h ∈ acc.1 then acc else (h :: acc.1, acc.2 ++ [q]))
      (seen, out)).2 = out ++ dedupGo seen qs := by
  induction qs with
  | nil => intro seen out; simp [dedupGo]
  | cons q rest ih =>
    intro seen out
    rw [List.foldl_cons]
    by_cases hm : fingerprint q ∈ seen
    · simp only [hm, if_true, dedupGo, ih]
    · simp only [hm, if_false, dedupGo, ih, List.append_assoc, List.singleton_append]

/-- Unfolding lemma for `dedupFirstOccurrence` on an empty list. -/
theorem dedupFirstOccurrence_nil : dedupFirstOccurrence [] = [] := by
  rw [dedupFirstOccurrence.eq_def]

/-- Unfolding lemma for `dedupFirstOccurrence` on a cons. -/
theorem dedupFirstOccurrence_cons (q : Question) (rest : List Question) :
    dedupFirstOccurrence (q :: rest) =
      q :: dedupFirstOccurrence (rest.filter (fun r => fingerprint r != fingerprint q)) := by
  rw [dedupFirstOccurrence.eq_def]

/-- `dedupGo` keeps, in order, exactly the first record of each fingerprint
not yet seen. -/
theorem dedupGo_eq_firstOccurrence (qs : List Question) : ∀ (seen : List (List Char)),
    dedupGo seen qs =
      dedupFirstOccurrence (qs.filter (fun q => !decide (fingerprint q ∈ seen))) := by
  induction qs with
  | nil => intro seen; simp [dedupGo, dedupFirstOccurrence_nil]
  | cons q rest ih =>
    intro seen
    rw [List.filter_cons]
    by_cases hm : fingerprint q ∈ seen
    · rw [if_neg (by simp [hm])]
      simp only [dedupGo, hm, if_true]
      exact ih seen
    · rw [if_pos (by simp [hm])]
      simp only [dedupGo, hm, if_false]
      rw [dedupFirstOccurrence_cons, List.filter_filter, ih (fingerprint q :: seen)]
      congr 1
      apply congrArg
      apply List.filter_congr
      intro r _
      by_cases h1 : fingerprint r = fingerprint q <;>
        by_cases h2 : fingerprint r ∈ seen <;>
        simp [h1, h2]

/-- C2: deduplication stability.  The deduplication fold of `main`, keyed by
the fingerprint (lowercase, stripped first 100 characters of the question
text), retains for each fingerprint exactly the first record encountered in
processing order, silently drops every later record with the same
fingerprint, and preserves the relative order of the retained records — it
equals the first-occurrence recursion stated from the spec. -/
theorem C2_dedup_first_occurrence (qs : List Question) :
    dedup_questions qs = dedupFirstOccurrence qs := by
  unfold dedup_questions
  rw [dedup_foldl_go qs [] [], dedupGo_eq_firstOccurrence qs []]
  simp

/-- A substitution with no match anywhere is the identity. -/
theorem subAll_no_match (m : List Char → Option (List Char)) (rep l : List Char)
    (h : findSplit m l = none) : subAll m rep l = l := by
  unfold subAll
  cases hl : l.length with
  | zero => rfl
  | succ f => simp [subAllGo, h]

/-- Every word produced by `pySplitAux` is non-empty and whitespace-free. -/
theorem pySplitAux_words_sound : ∀ (l cur : List Char), (∀ c ∈ cur, isPyWs c = false) →
    ∀ w ∈ pySplitAux l cur, w ≠ [] ∧ ∀ c ∈ w, isPyWs c = false := by
  intro l
  induction l with
  | nil =>
    intro cur hcur w hw
    simp only [pySplitAux] at hw
    by_cases hc : cur.isEmpty
    · simp [hc] at hw
    · rw [if_neg hc] at hw
      obtain rfl := List.mem_singleton.mp hw
      refine ⟨?_, fun c hcw => hcur c (List.mem_reverse.mp hcw)⟩
      intro hn
      exact hc (by simp [List.reverse_eq_nil_iff.mp hn])
  | cons c rest ih =>
    intro cur hcur w hw
    simp only [pySplitAux] at hw
    by_cases hws : isPyWs c
    · rw [if_pos hws] at hw
      by_cases hc : cur.isEmpty
      · rw [if_pos hc] at hw
        exact ih [] (by simp) w hw
      · rw [if_neg hc] at hw
        rcases List.mem_cons.mp hw with hw | hw
        · subst hw
          refine ⟨?_, fun x hx => hcur x (List.mem_reverse.mp hx)⟩
          intro hn
          exact hc (by simp [List.reverse_eq_nil_iff.mp hn])
        · exact ih [] (by simp) w hw
    · rw [if_neg hws] at hw
      refine ih (c :: cur) ?_ w hw
      intro x hx
      rcases List.mem_cons.mp hx with hx | hx
      · subst hx; exact Bool.eq_false_iff.mpr hws
      · exact hcur x hx

/-- Scanning a whitespace-free chunk just accumulates it. -/
theorem pySplitAux_word_chunk : ∀ (w rest cur : List Char),
    (∀ c ∈ w, isPyWs c = false) →
    pySplitAux (w ++ rest) cur = pySplitAux rest (w.reverse ++ cur) := by
  intro w
  induction w with
  | nil => intro rest cur _; simp
  | cons c w' ih =>
    intro rest cur hw
    have hc : isPyWs c = false := hw c (by simp)
    simp only [List.cons_append, pySplitAux, hc, Bool.false_eq_true, if_false,
      List.append_eq]
    rw [ih rest (c :: cur) (fun x hx => hw x (by simp [hx]))]
    simp

/-- Splitting the space-joined words recovers the words, when every word is
non-empty and whitespace-free. -/
theorem pySplit_joinSpace : ∀ (ws : List (List Char)),
    (∀ w ∈ ws, w ≠ [] ∧ ∀ c ∈ w, isPyWs c = false) →
    pySplit (joinSpace ws) = ws := by
  intro ws
  induction ws with
  | nil => intro _; rfl
  | cons w ws' ih =>
    intro h
    obtain ⟨hne, hfree⟩ := h w (by simp)
    have hre : w.reverse.isEmpty = false := by
      simp [List.isEmpty_eq_false, hne]
    cases ws' with
    | nil =>
      show pySplitAux (joinSpace [w]) [] = [w]
      have hj : joinSpace [w] = w ++ [] := by simp [joinSpace]
      rw [hj, pySplitAux_word_chunk w [] [] hfree]
      simp [pySplitAux, hre]
    | cons w2 ws'' =>
      show pySplitAux (joinSpace (w :: w2 :: ws'')) [] = w :: w2 :: ws''
      have hj : joinSpace (w :: w2 :: ws'') = w ++ ' ' :: joinSpace (w2 :: ws'') := rfl
      rw [hj, pySplitAux_word_chunk w _ [] hfree]
      have hsp : isPyWs ' ' = true := by decide
      simp only [List.append_nil, pySplitAux, hsp, if_true, hre, Bool.false_eq_true,
        if_false, List.reverse_reverse]
      exact congrArg (w :: ·) (ih (fun x hx => h x (by simp [hx])))

/-- `dropWhile` is the identity on a list of whitespace-free characters. -/
theorem dropWhile_wsFree (l : List Char) (h : ∀ c ∈ l, isPyWs c = false) :
    l.dropWhile isPyWs = l := by
  cases l with
  | nil => rfl
  | cons c t => simp [List.dropWhile_cons, h c (by simp)]

/-- `dropWhile` is the identity on `l₁ ++ l₂` when it is the identity on the
non-empty `l₁`. -/
theorem dropWhile_append_self (l₁ l₂ : List Char) (h : l₁.dropWhile isPyWs = l₁)
    (hne : l₁ ≠ []) : (l₁ ++ l₂).dropWhile isPyWs = l₁ ++ l₂ := by
  obtain ⟨c, t, rfl⟩ := List.exists_cons_of_ne_nil hne
  have hc : isPyWs c = false := by
    by_cases hcc : isPyWs c = true
    · exfalso
      rw [List.dropWhile_cons, if_pos hcc] at h
      have hlen := congrArg List.length h
      have hle := (List.dropWhile_sublist (l := t) isPyWs).length_le
      simp at hlen
      omega
    · exact Bool.eq_false_iff.mpr hcc
  rw [List.cons_append, List.dropWhile_cons]
  simp [hc]

/-- The space-joined words of non-empty whitespace-free words start with a
non-whitespace character. -/
theorem dropWhile_joinSpace : ∀ (ws : List (List Char)),
    (∀ w ∈ ws, w ≠ [] ∧ ∀ c ∈ w, isPyWs c = false) →
    (joinSpace ws).dropWhile isPyWs = joinSpace ws := by
  intro ws h
  cases ws with
  | nil => rfl
  | cons w ws' =>
    obtain ⟨hne, hfree⟩ := h w (by simp)
    cases ws' with
    | nil => exact dropWhile_wsFree w hfree
    | cons w2 ws'' =>
      exact dropWhile_append_self w _ (dropWhile_wsFree w hfree) hne

/-- The space-joined words also end with a non-whitespace character. -/
theorem dropWhile_reverse_joinSpace : ∀ (ws : List (List Char)),
    (∀ w ∈ ws, w ≠ [] ∧ ∀ c ∈ w, isPyWs c = false) →
    (joinSpace ws).reverse.dropWhile isPyWs = (joinSpace ws).reverse := by
  intro ws
  induction ws with
  | nil => intro _; rfl
  | cons w ws' ih =>
    intro h
    obtain ⟨hne, hfree⟩ := h w (by simp)
    cases ws' with
    | nil =>
      refine dropWhile_wsFree _ ?_
      intro c hc
      exact hfree c (List.mem_reverse.mp hc)
    | cons w2 ws'' =>
      have hj : joinSpace (w :: w2 :: ws'') = w ++ ' ' :: joinSpace (w2 :: ws'') := rfl
      have hJne : joinSpace (w2 :: ws'') ≠ [] := by
        obtain ⟨hne2, _⟩ := h w2 (by simp)
        obtain ⟨c, t, rfl⟩ := List.exists_cons_of_ne_nil hne2
        cases ws'' <;> simp [joinSpace]
      have hihne : (joinSpace (w2 :: ws'')).reverse ≠ [] := by
        simp [List.reverse_eq_nil_iff, hJne]
      rw [hj, List.reverse_append, List.reverse_cons, List.append_assoc]
      exact dropWhile_append_self _ _ (ih (fun x hx => h x (by simp [hx]))) hihne

/-- `pyStrip` is the identity on the space-joined words. -/
theorem pyStrip_joinSpace (ws : List (List Char))
    (h : ∀ w ∈ ws, w ≠ [] ∧ ∀ c ∈ w, isPyWs c = false) :
    pyStrip (joinSpace ws) = joinSpace ws := by
  unfold pyStrip
  rw [dropWhile_joinSpace ws h, dropWhile_reverse_joinSpace ws h, List.reverse_reverse]

/-- The whitespace normalization `' '.join(x.split()).strip()` is
idempotent. -/
theorem norm_idempotent (x : List Char) :
    pyStrip (joinSpace (pySplit (pyStrip (joinSpace (pySplit x))))) =
      pyStrip (joinSpace (pySplit x)) := by
  have hws := pySplitAux_words_sound x [] (by simp)
  have hstrip := pyStrip_joinSpace (pySplit x) hws
  rw [hstrip, pySplit_joinSpace (pySplit x) hws, hstrip]

/-- C6 amended: `clean_text` is idempotent on every input whose cleaned form
contains no remaining page-marker occurrence (the whitespace normalization is
always idempotent; only an unscanned page marker surviving the first pass —
see the C6 counterexample — can make a second pass differ), in both parser
modules. -/
theorem C6_idempotent_amended (l : List Char)
    (h1 : findSplit pageSlashAt (V2.clean_text l) = none)
    (h2 : findSplit pageOfAt (V2.clean_text l) = none)
    (h3 : findSplit pageSlashAt (V1.clean_text l) = none) :
    V2.clean_text (V2.clean_text l) = V2.clean_text l ∧
    V1.clean_text (V1.clean_text l) = V1.clean_text l := by
  have e2 : ∀ y, V2.clean_text y =
      pyStrip (joinSpace (pySplit (subAll pageOfAt [' '] (subAll pageSlashAt [' '] y)))) :=
    fun y => rfl
  have e1 : ∀ y, V1.clean_text y =
      pyStrip (joinSpace (pySplit (subAll pageSlashAt [] y))) :=
    fun y => rfl
  constructor
  · rw [e2 (V2.clean_text l), subAll_no_match _ _ _ h1, subAll_no_match _ _ _ h2,
      e2 l]
    exact norm_idempotent _
  · rw [e1 (V1.clean_text l), subAll_no_match _ _ _ h3, e1 l]
    exact norm_idempotent _

/-- Witness for C6 at an input whose cleaned form has no page marker. -/
theorem C6_idempotent_amended_witness :
    (findSplit pageSlashAt (V2.clean_text "Explain  functions Page: 1/2 in Python ".toList) = none ∧
     findSplit pageOfAt (V2.clean_text "Explain  functions Page: 1/2 in Python ".toList) = none ∧
     findSplit pageSlashAt (V1.clean_text "Explain  functions Page: 1/2 in Python ".toList) = none) ∧
    (V2.clean_text (V2.clean_text "Explain  functions Page: 1/2 in Python ".toList) =
       V2.clean_text "Explain  functions Page: 1/2 in Python ".toList ∧
     V1.clean_text (V1.clean_text "Explain  functions Page: 1/2 in Python ".toList) =
       V1.clean_text "Explain  functions Page: 1/2 in Python ".toList) :=
  ⟨⟨by decide, by decide, by decide⟩,
   C6_idempotent_amended "Explain  functions Page: 1/2 in Python ".toList
     (by decide) (by decide) (by decide)⟩

/-- The v2 type classifier returns `mcq` exactly when at least two options
were collected (every other branch returns a different literal). -/
theorem detect_mcq_iff (t : List Char) (opts : List (List Char)) :
    V2.detect_question_type t opts = "mcq" ↔ 2 ≤ opts.length := by
  constructor
  · intro h
    by_cases hlen : 2 ≤ opts.length
    · exact hlen
    · exfalso
      have hcond : (!opts.isEmpty && decide (2 ≤ opts.length)) = false := by
        simp [hlen]
      unfold V2.detect_question_type at h
      simp only [hcond, Bool.false_eq_true, if_false] at h
      repeat' split at h
      all_goals exact absurd h (by decide)
  · intro h
    have hne : opts.isEmpty = false := by
      cases opts with
      | nil => simp at h
      | cons a r => rfl
    simp [V2.detect_question_type, hne, h]

/-- A record emitted by the universal finalize carries its options exactly
when the collected list was non-empty, and is typed `mcq` exactly when that
list has at least two entries. -/
theorem finalize_options_sound (ch src : String) (buffer opts : List (List Char))
    (marks : Option Nat) (q : Question)
    (h : V2.finalize_question ch src buffer opts marks = some q) :
    ∀ l, q.options = some l → l ≠ [] ∧ (q.type = "mcq" ↔ 2 ≤ l.length) := by
  intro l hl
  unfold V2.finalize_question at h
  by_cases hb : buffer.isEmpty
  · rw [if_pos hb] at h; cases h
  · rw [if_neg hb] at h
    by_cases hlen : 15 < (V2.question_body buffer).length
    · rw [if_pos hlen] at h
      obtain rfl := Option.some.inj h
      have hl' : (if opts.isEmpty then none else some (opts.map List.asString)) = some l := hl
      by_cases ho : opts.isEmpty
      · rw [if_pos ho] at hl'; cases hl'
      · rw [if_neg ho] at hl'
        obtain rfl := Option.some.inj hl'
        refine ⟨?_, ?_⟩
        · cases opts with
          | nil => exact absurd rfl ho
          | cons a r => simp
        · show V2.detect_question_type (V2.question_body buffer) opts = "mcq" ↔ _
          rw [List.length_map]
          exact detect_mcq_iff _ opts
    · rw [if_neg hlen] at h; cases h

/-- The append/OR branches of the universal loop never emit a record. -/
theorem universalAppend_questions (st : V2.UState) (line : List Char) :
    (V2.universalAppend st line).questions = st.questions := by
  unfold V2.universalAppend
  split
  · rfl
  · split <;> rfl

/-- `save_current_question` preserves the options invariant. -/
theorem save_options_sound (ch src : String) (st : V2.UState)
    (h : ∀ q ∈ st.questions, ∀ l, q.options = some l →
      l ≠ [] ∧ (q.type = "mcq" ↔ 2 ≤ l.length)) :
    ∀ q ∈ (V2.save_current_question ch src st).questions, ∀ l, q.options = some l →
      l ≠ [] ∧ (q.type = "mcq" ↔ 2 ≤ l.length) := by
  intro q hq
  unfold V2.save_current_question at hq
  cases hf : V2.finalize_question ch src st.buffer st.options st.marks with
  | none => simp only [hf] at hq; exact h q hq
  | some q' =>
    simp only [hf] at hq
    rcases List.mem_append.mp hq with hq | hq
    · exact h q hq
    · obtain rfl := List.mem_singleton.mp hq
      exact finalize_options_sound ch src st.buffer st.options st.marks q hf

/-- One universal loop iteration preserves the options invariant. -/
theorem step_options_sound (ch src : String) (st : V2.UState) (line : List Char)
    (h : ∀ q ∈ st.questions, ∀ l, q.options = some l →
      l ≠ [] ∧ (q.type = "mcq" ↔ 2 ≤ l.length)) :
    ∀ q ∈ (V2.universalStep ch src st line).questions, ∀ l, q.options = some l →
      l ≠ [] ∧ (q.type = "mcq" ↔ 2 ≤ l.length) := by
  intro q hq
  unfold V2.universalStep at hq
  by_cases hH : V2.header_match line
  · rw [if_pos hH] at hq; exact h q hq
  · rw [if_neg hH] at hq
    cases hB : V2.q_any_match line with
    | some p =>
      obtain ⟨num, rest⟩ := p
      simp only [hB] at hq
      exact save_options_sound ch src st h q hq
    | none =>
      simp only [hB] at hq
      cases hO : option_match line with
      | some p2 =>
        obtain ⟨letter, content⟩ := p2
        simp only [hO] at hq
        split at hq
        · exact h q hq
        · rw [universalAppend_questions] at hq; exact h q hq
      | none =>
        simp only [hO] at hq
        rw [universalAppend_questions] at hq; exact h q hq

/-- The whole universal fold preserves the options invariant. -/
theorem foldl_options_sound (ch src : String) :
    ∀ (lines : List (List Char)) (st : V2.UState),
      (∀ q ∈ st.questions, ∀ l, q.options = some l →
        l ≠ [] ∧ (q.type = "mcq" ↔ 2 ≤ l.length)) →
      ∀ q ∈ (lines.foldl (V2.universalStep ch src) st).questions, ∀ l,
        q.options = some l → l ≠ [] ∧ (q.type = "mcq" ↔ 2 ≤ l.length) := by
  intro lines
  induction lines with
  | nil => intro st h; exact h
  | cons x rest ih =>
    intro st h
    rw [List.foldl_cons]
    exact ih (V2.universalStep ch src st x) (step_options_sound ch src st x h)

/-- C7 amended: every record emitted by the universal strategy with a present
`options` field has at least one entry, and its type is `mcq` exactly when
the list has at least two entries.  (A present single-entry options list with
a non-mcq type does occur — see the C7 counterexample — so the claim's
"at least 2 entries" part fails, while option dominance holds in both
directions.) -/
theorem C7_options_invariant_amended (paragraphs : List (List Char)) (src ch : String) :
    ∀ q ∈ V2.parse_document_universal paragraphs src ch, ∀ l, q.options = some l →
      l ≠ [] ∧ (q.type = "mcq" ↔ 2 ≤ l.length) := by
  intro q hq
  unfold V2.parse_document_universal at hq
  refine save_options_sound ch src _ ?_ q hq
  refine foldl_options_sound ch src (V2.universal_lines paragraphs) V2.initU ?_
  intro q' hq'
  simp [V2.initU] at hq'

/-- Witness for C7 at the mcq record emitted from the C1 document. -/
theorem C7_options_invariant_amended_witness :
    (({ questionText := "What is inheritance?", type := "mcq", marks := 2,
         options := some ["A) concept one", "B) concept two"], correctAnswer := none,
         chapter := "Mixed", source := some "SQP 2024-25" } : Question) ∈
      V2.parse_document_universal
        (["1. What is inheritance? [2]", "(a) concept one", "(b) concept two",
          "2. Explain polymorphism with an example."].map String.toList)
        "SQP 2024-25" "Mixed" ∧
     ({ questionText := "What is inheritance?", type := "mcq", marks := 2,
         options := some ["A) concept one", "B) concept two"], correctAnswer := none,
         chapter := "Mixed", source := some "SQP 2024-25" } : Question).options =
       some ["A) concept one", "B) concept two"]) ∧
    ((["A) concept one", "B) concept two"] : List String) ≠ [] ∧
     (({ questionText := "What is inheritance?", type := "mcq", marks := 2,
          options := some ["A) concept one", "B) concept two"], correctAnswer := none,
          chapter := "Mixed", source := some "SQP 2024-25" } : Question).type = "mcq" ↔
       2 ≤ (["A) concept one", "B) concept two"] : List String).length)) :=
  ⟨⟨by decide, by decide⟩,
   C7_options_invariant_amended
     (["1. What is inheritance? [2]", "(a) concept one", "(b) concept two",
       "2. Explain polymorphism with an example."].map String.toList)
     "SQP 2024-25" "Mixed" _ (by decide) _ (by decide)⟩

end Prashnakosh
